import Mathlib

/-!
Shallow embedding of src/cm-psu.c (Cooler Master PSU HID driver).

The decoder lives in cmpsu_raw_event, the sensor table in struct cmpsu_data
(five long arrays initialised to -1 by cmpsu_probe), and the query surface in
cmpsu_hwmon_is_visible / cmpsu_hwmon_read / cmpsu_hwmon_read_string.

Bytes are modelled as Nat (u8 values); a raw HID event is a List Nat together
with its implicit size (the list length).  The sensor arrays are modelled as
functions Nat → Int (C long values); only indices below the per-category count
are ever written or read by the code, exactly as in the source.

The three sscanf calls use the kernel vsscanf semantics (lib/vsprintf.c):
  - a non-whitespace literal in the format must match the next byte exactly;
  - %c consumes one byte and fails at the end of the string;
  - %Nu skips leading whitespace, requires a decimal digit next (no sign is
    accepted for the unsigned conversion), then consumes the leading digit run
    but keeps only its first N digits: the parsed value is truncated by
    repeated division by ten and the scan position is moved back, so exactly
    min(run length, N) digits are consumed;
  - the return value counts the successful conversions, so a failure of a
    trailing literal after the last conversion does not lower it.
sscanf reads the buffer as a C string: bytes from the first NUL on are
invisible to it.
-/

/-- C isspace (kernel _ctype): space, \t, \n, \v, \f, \r. -/
def isSpaceByte (b : Nat) : Bool :=
  b = 32 || b = 9 || b = 10 || b = 11 || b = 12 || b = 13

/-- C isdigit: ASCII 48..57. -/
def isDigitByte (b : Nat) : Bool :=
  48 ≤ b && b ≤ 57

/-- The C string contained in a byte buffer: everything before the first NUL. -/
def cstr : List Nat → List Nat
  | [] => []
  | b :: rest => if b = 0 then [] else b :: cstr rest

/-- skip_spaces in vsscanf before a numeric conversion. -/
def skipSpaces : List Nat → List Nat
  | [] => []
  | b :: rest => if isSpaceByte b then skipSpaces rest else b :: rest

/-- Consume at most `width` leading decimal digits, returning the value read
so far and the unconsumed rest (kernel vsscanf field-width truncation:
the value keeps only the first `width` digits of the digit run and the rest,
extra digits included, stays in the input). -/
def scanUAux : Nat → Nat → List Nat → Nat × List Nat
  | 0, acc, s => (acc, s)
  | _ + 1, acc, [] => (acc, [])
  | w + 1, acc, b :: rest =>
      if isDigitByte b then scanUAux w (acc * 10 + (b - 48)) rest
      else (acc, b :: rest)

/-- One %Nu conversion of kernel vsscanf: skip whitespace, require a digit
(the unsigned conversion accepts no sign), read the first `width` digits. -/
def scanU (width : Nat) (s : List Nat) : Option (Nat × List Nat) :=
  match skipSpaces s with
  | [] => none
  | b :: rest =>
      if isDigitByte b then some (scanUAux width 0 (b :: rest))
      else none

/-- A literal byte in the sscanf format: must match the next byte exactly. -/
def matchLit (c : Nat) : List Nat → Option (List Nat)
  | [] => none
  | b :: rest => if b = c then some rest else none

/-- The %c conversion: one byte, failing at the end of the string. -/
def scanChar : List Nat → Option (Nat × List Nat)
  | [] => none
  | b :: rest => some (b, rest)

/-- sscanf(data, "[%c%1u%03u.%1u]", &type, &channel, &value1, &value2) == 4.
The trailing ] literal sits after the last conversion, so it cannot lower the
conversion count: it is not represented. -/
def scanVIT (s : List Nat) : Option (Nat × Nat × Nat × Nat) := do
  let s ← matchLit 91 s
  let (ty, s) ← scanChar s
  let (ch, s) ← scanU 1 s
  let (v1, s) ← scanU 3 s
  let s ← matchLit 46 s
  let (v2, _) ← scanU 1 s
  return (ty, ch, v1, v2)

/-- sscanf(data, "[%c%1u%04u]", &type, &channel, &value1) == 3.
Again the trailing ] cannot lower the conversion count. -/
def scanR (s : List Nat) : Option (Nat × Nat × Nat) := do
  let s ← matchLit 91 s
  let (ty, s) ← scanChar s
  let (ch, s) ← scanU 1 s
  let (v1, _) ← scanU 4 s
  return (ty, ch, v1)

/-- sscanf(data, "[%c%1u%04u/%04u]", &type, &channel, &value1, &value2) == 4.
The / literal sits before the last conversion, so it must match; the trailing
] again cannot lower the conversion count. -/
def scanP (s : List Nat) : Option (Nat × Nat × Nat × Nat) := do
  let s ← matchLit 91 s
  let (ty, s) ← scanChar s
  let (ch, s) ← scanU 1 s
  let (v1, s) ← scanU 4 s
  let s ← matchLit 47 s
  let (v2, _) ← scanU 4 s
  return (ty, ch, v1, v2)

def EVENT_LEN : Nat := 16

def COUNT_VOLTAGE : Nat := 5
def COUNT_CURRENT : Nat := 5
def COUNT_POWER : Nat := 2
def COUNT_TEMP : Nat := 2
def COUNT_FAN : Nat := 1

/-- The front half of cmpsu_raw_event: the size and NUL-termination checks,
the switch on data[1] picking the format string, and the sscanf call.
Returns the (type, channel, value1, value2) quadruple exactly when the chosen
sscanf call reaches its required conversion count.  In the fan branch value2
is left uninitialised by the C code and never read afterwards; it is filled
with 0 here. -/
def cmpsu_parse (data : List Nat) : Option (Nat × Nat × Nat × Nat) :=
  if data.length ≠ EVENT_LEN then none
  else if data.getD (EVENT_LEN - 1) 1 ≠ 0 then none
  else if data.length < 5 then none
  else
    let s := cstr data
    if data.getD 1 0 = 86 ∨ data.getD 1 0 = 73 ∨ data.getD 1 0 = 84 then
      scanVIT s
    else if data.getD 1 0 = 82 then
      (scanR s).map (fun x => (x.1, x.2.1, x.2.2, 0))
    else if data.getD 1 0 = 80 then
      if data.getD 2 0 ≠ 50 then none else scanP s
    else none

/-- struct cmpsu_data: the five long arrays (hdev/hwmon_dev omitted: they are
transport plumbing the decoder and table never read). -/
structure CmpsuData where
  values_voltage : Nat → Int
  values_current : Nat → Int
  values_power : Nat → Int
  values_temp : Nat → Int
  values_fan : Nat → Int

/-- The table as cmpsu_probe leaves it: every slot set to -1. -/
def cmpsu_initData : CmpsuData :=
  { values_voltage := fun _ => -1
    values_current := fun _ => -1
    values_power := fun _ => -1
    values_temp := fun _ => -1
    values_fan := fun _ => -1 }

/-- The back half of cmpsu_raw_event: the switch on type storing the parsed
values.  `ch` is the already decremented channel; the arithmetic on values is
C unsigned int arithmetic, hence the mod 2^32. -/
def cmpsu_store (priv : CmpsuData) (ty ch v1 v2 : Nat) : CmpsuData :=
  if ty = 86 then
    if ch ≥ COUNT_VOLTAGE then priv
    else
      let v : Int := (((v1 * 1000 + v2 * 100) % 4294967296 : Nat) : Int)
      { priv with values_voltage := Function.update priv.values_voltage ch v }
  else if ty = 73 then
    if ch ≥ COUNT_CURRENT then priv
    else
      let v : Int := (((v1 * 1000 + v2 * 100) % 4294967296 : Nat) : Int)
      { priv with values_current := Function.update priv.values_current ch v }
  else if ty = 84 then
    if ch ≥ COUNT_TEMP then priv
    else
      let v : Int := (((v1 * 1000 + v2 * 100) % 4294967296 : Nat) : Int)
      { priv with values_temp := Function.update priv.values_temp ch v }
  else if ty = 82 then
    if ch ≥ COUNT_FAN then priv
    else { priv with values_fan := Function.update priv.values_fan ch (v1 : Int) }
  else if ty = 80 then
    if ch ≠ 1 then priv
    else
      let p0 : Int := (((v1 * 1000000) % 4294967296 : Nat) : Int)
      let p1 : Int := (((v2 * 1000000) % 4294967296 : Nat) : Int)
      { priv with values_power :=
          Function.update (Function.update priv.values_power 0 p0) 1 p1 }
  else priv

/-- cmpsu_raw_event: parse, then decrement the 1-based channel (unsigned int
arithmetic: channel 0 wraps to 2^32 - 1; the `channel < 0` test in the source
is dead code on an unsigned variable), then store.  Returns the new table
state; the C function always returns 0. -/
def cmpsu_raw_event (priv : CmpsuData) (data : List Nat) : CmpsuData :=
  match cmpsu_parse data with
  | none => priv
  | some (ty, channel, v1, v2) =>
      cmpsu_store priv ty ((channel + 4294967295) % 4294967296) v1 v2

/-- enum hwmon_sensor_types restricted to the variants the driver handles,
plus one stand-in for every other variant (the default branches). -/
inductive HwmonType where
  | hwmon_in
  | hwmon_curr
  | hwmon_power
  | hwmon_temp
  | hwmon_fan
  | hwmon_other
deriving DecidableEq

/-- The per-type attribute constants the driver compares against
(hwmon_in_label etc.); everything else is `input`. -/
inductive HwmonAttr where
  | input
  | label
deriving DecidableEq

/-- The fixed channel count per category (COUNT_* in the source; zero for the
sensor types the driver does not handle). -/
def typeChannelCount : HwmonType → Nat
  | .hwmon_in => COUNT_VOLTAGE
  | .hwmon_curr => COUNT_CURRENT
  | .hwmon_power => COUNT_POWER
  | .hwmon_temp => COUNT_TEMP
  | .hwmon_fan => COUNT_FAN
  | .hwmon_other => 0

def cmpsu_labels_voltage : List String :=
  ["V_AC", "+5V", "+3.3V", "+12V2", "+12V1"]

def cmpsu_labels_current : List String :=
  ["I_AC", "I_+5V", "I_+3.3V", "I_+12V2", "I_+12V1"]

def cmpsu_labels_power : List String :=
  ["P_in", "P_out"]

def ENODATA : Int := 61
def EOPNOTSUPP : Int := 95

/-- cmpsu_hwmon_is_visible: 0444 for a channel below the category count, 0
otherwise (attr is ignored by the source). -/
def cmpsu_hwmon_is_visible (t : HwmonType) (channel : Nat) : Nat :=
  match t with
  | .hwmon_in => if channel < COUNT_VOLTAGE then 0o444 else 0
  | .hwmon_curr => if channel < COUNT_CURRENT then 0o444 else 0
  | .hwmon_power => if channel < COUNT_POWER then 0o444 else 0
  | .hwmon_temp => if channel < COUNT_TEMP then 0o444 else 0
  | .hwmon_fan => if channel < COUNT_FAN then 0o444 else 0
  | .hwmon_other => 0

/-- cmpsu_hwmon_read: -EOPNOTSUPP unless the channel is in range, -ENODATA
for a slot still holding the -1 sentinel, otherwise the slot value. -/
def cmpsu_hwmon_read (priv : CmpsuData) (t : HwmonType) (channel : Nat) :
    Except Int Int :=
  match t with
  | .hwmon_in =>
      if channel < COUNT_VOLTAGE then
        if priv.values_voltage channel = -1 then .error (-ENODATA)
        else .ok (priv.values_voltage channel)
      else .error (-EOPNOTSUPP)
  | .hwmon_curr =>
      if channel < COUNT_CURRENT then
        if priv.values_current channel = -1 then .error (-ENODATA)
        else .ok (priv.values_current channel)
      else .error (-EOPNOTSUPP)
  | .hwmon_power =>
      if channel < COUNT_POWER then
        if priv.values_power channel = -1 then .error (-ENODATA)
        else .ok (priv.values_power channel)
      else .error (-EOPNOTSUPP)
  | .hwmon_temp =>
      if channel < COUNT_TEMP then
        if priv.values_temp channel = -1 then .error (-ENODATA)
        else .ok (priv.values_temp channel)
      else .error (-EOPNOTSUPP)
  | .hwmon_fan =>
      if channel < COUNT_FAN then
        if priv.values_fan channel = -1 then .error (-ENODATA)
        else .ok (priv.values_fan channel)
      else .error (-EOPNOTSUPP)
  | .hwmon_other => .error (-EOPNOTSUPP)

/-- cmpsu_hwmon_read_string: the static label for voltage, current and power
channels in range when the label attribute is asked for; -EOPNOTSUPP
otherwise (in particular for every temperature and fan query). -/
def cmpsu_hwmon_read_string (t : HwmonType) (attr : HwmonAttr) (channel : Nat) :
    Except Int String :=
  if t = .hwmon_in ∧ attr = .label ∧ channel < COUNT_VOLTAGE then
    .ok (cmpsu_labels_voltage.getD channel "")
  else if t = .hwmon_curr ∧ attr = .label ∧ channel < COUNT_CURRENT then
    .ok (cmpsu_labels_current.getD channel "")
  else if t = .hwmon_power ∧ attr = .label ∧ channel < COUNT_POWER then
    .ok (cmpsu_labels_power.getD channel "")
  else .error (-EOPNOTSUPP)

/-- The slot of the table for a (category, channel) pair (the C array cell;
the stand-in category has no array and yields the sentinel). -/
def getSlot (priv : CmpsuData) : HwmonType → Nat → Int
  | .hwmon_in, ch => priv.values_voltage ch
  | .hwmon_curr, ch => priv.values_current ch
  | .hwmon_power, ch => priv.values_power ch
  | .hwmon_temp, ch => priv.values_temp ch
  | .hwmon_fan, ch => priv.values_fan ch
  | .hwmon_other, _ => -1

/-- A session: the table after a sequence of raw HID events has been
delivered to a freshly probed device. -/
def runMsgs (msgs : List (List Nat)) : CmpsuData :=
  msgs.foldl cmpsu_raw_event cmpsu_initData

/-- The value (if any) that decoding `data` writes into the slot
(t, ch) - a pure function of the buffer, mirroring cmpsu_raw_event. -/
def cmpsu_writeOf (data : List Nat) (t : HwmonType) (ch : Nat) : Option Int :=
  match cmpsu_parse data with
  | none => none
  | some (ty, channel, v1, v2) =>
      let c := (channel + 4294967295) % 4294967296
      if ty = 86 then
        if c < COUNT_VOLTAGE ∧ t = .hwmon_in ∧ ch = c then
          some (((v1 * 1000 + v2 * 100) % 4294967296 : Nat) : Int)
        else none
      else if ty = 73 then
        if c < COUNT_CURRENT ∧ t = .hwmon_curr ∧ ch = c then
          some (((v1 * 1000 + v2 * 100) % 4294967296 : Nat) : Int)
        else none
      else if ty = 84 then
        if c < COUNT_TEMP ∧ t = .hwmon_temp ∧ ch = c then
          some (((v1 * 1000 + v2 * 100) % 4294967296 : Nat) : Int)
        else none
      else if ty = 82 then
        if c < COUNT_FAN ∧ t = .hwmon_fan ∧ ch = c then
          some ((v1 : Nat) : Int)
        else none
      else if ty = 80 then
        if c = 1 ∧ t = .hwmon_power then
          if ch = 1 then some (((v2 * 1000000) % 4294967296 : Nat) : Int)
          else if ch = 0 then some (((v1 * 1000000) % 4294967296 : Nat) : Int)
          else none
        else none
      else none

/-- The latest write a message sequence performs on a given slot. -/
def lastWrite (t : HwmonType) (ch : Nat) : List (List Nat) → Option Int
  | [] => none
  | data :: rest =>
      match lastWrite t ch rest with
      | some v => some v
      | none => cmpsu_writeOf data t ch

/-- The numeric value of a list of ASCII digit bytes, most significant
first. -/
def digitsValAux : List Nat → Nat → Nat
  | [], acc => acc
  | b :: rest, acc => digitsValAux rest (acc * 10 + (b - 48))

def digitsVal (l : List Nat) : Nat := digitsValAux l 0

/-- The category a V/I/T type byte stores into. -/
def vitCat (ty : Nat) : HwmonType :=
  if ty = 86 then .hwmon_in
  else if ty = 73 then .hwmon_curr
  else if ty = 84 then .hwmon_temp
  else .hwmon_other

/-- The channel count a raw type byte checks against in the store switch. -/
def byteTypeCount (ty : Nat) : Nat :=
  if ty = 86 then COUNT_VOLTAGE
  else if ty = 73 then COUNT_CURRENT
  else if ty = 84 then COUNT_TEMP
  else if ty = 82 then COUNT_FAN
  else if ty = 80 then COUNT_POWER
  else 0

/-- A V/I/T event buffer: [, type byte, channel digit, integer digits, dot,
fraction digits, ], zero padding to the 16-byte event size. -/
def mkVIT (ty c : Nat) (ds fr : List Nat) : List Nat :=
  (91 :: ty :: c :: (ds ++ 46 :: (fr ++ [93]))) ++
    List.replicate (16 - (5 + ds.length + fr.length)) 0

/-- A fan event buffer: [, R, channel digit, integer digits, ], padding. -/
def mkR (c : Nat) (ds : List Nat) : List Nat :=
  (91 :: 82 :: c :: (ds ++ [93])) ++ List.replicate (16 - (4 + ds.length)) 0

/-- A power event buffer: [, P, 2, first field, /, second field, ],
padding. -/
def mkP (as bs : List Nat) : List Nat :=
  (91 :: 80 :: 50 :: (as ++ 47 :: (bs ++ [93]))) ++
    List.replicate (16 - (5 + as.length + bs.length)) 0

/-! ### Scanner helper lemmas -/

/-- A list whose head (if any) is not an ASCII digit. -/
def headNotDigit : List Nat → Prop
  | [] => True
  | b :: _ => isDigitByte b = false

lemma isSpaceByte_eq_false_of_digit {b : Nat} (h : isDigitByte b = true) :
    isSpaceByte b = false := by
  simp [isDigitByte] at h
  simp [isSpaceByte]
  omega

lemma scanUAux_nil (w acc : Nat) : scanUAux w acc [] = (acc, []) := by
  cases w <;> rfl

lemma scanUAux_zero (acc : Nat) (s : List Nat) : scanUAux 0 acc s = (acc, s) := rfl

lemma scanUAux_cons (w acc b : Nat) (rest : List Nat) :
    scanUAux (w + 1) acc (b :: rest) =
      if isDigitByte b then scanUAux w (acc * 10 + (b - 48)) rest
      else (acc, b :: rest) := rfl

lemma scanUAux_append_exact :
    ∀ (ds : List Nat) (acc : Nat) (rest : List Nat),
    (∀ b ∈ ds, isDigitByte b = true) →
    scanUAux ds.length acc (ds ++ rest) = (digitsValAux ds acc, rest) := by
  intro ds
  induction ds with
  | nil => intro acc rest _; simp [scanUAux_zero, digitsValAux]
  | cons d ds ih =>
      intro acc rest hd
      have hdd : isDigitByte d = true := hd d (by simp)
      simp only [List.length_cons, List.cons_append, scanUAux_cons, hdd,
        if_true, digitsValAux]
      exact ih _ rest (fun b hb => hd b (by simp [hb]))

lemma scanUAux_append_le :
    ∀ (ds : List Nat) (w acc : Nat) (rest : List Nat),
    ds.length ≤ w → (∀ b ∈ ds, isDigitByte b = true) → headNotDigit rest →
    scanUAux w acc (ds ++ rest) = (digitsValAux ds acc, rest) := by
  intro ds
  induction ds with
  | nil =>
      intro w acc rest _ _ hr
      cases rest with
      | nil => simpa [digitsValAux] using scanUAux_nil w acc
      | cons b r =>
          cases w with
          | zero => simp [scanUAux_zero, digitsValAux]
          | succ w =>
              simp only [headNotDigit] at hr
              simp [scanUAux_cons, hr, digitsValAux]
  | cons d ds ih =>
      intro w acc rest hw hd hr
      cases w with
      | zero => simp at hw
      | succ w =>
          have hdd : isDigitByte d = true := hd d (by simp)
          simp only [List.cons_append, scanUAux_cons, hdd, if_true, digitsValAux]
          exact ih w _ rest (by simpa using hw) (fun b hb => hd b (by simp [hb])) hr

lemma scanU_append (w : Nat) (ds rest : List Nat) (hne : ds ≠ [])
    (hd : ∀ b ∈ ds, isDigitByte b = true)
    (h : ds.length = w ∨ (ds.length ≤ w ∧ headNotDigit rest)) :
    scanU w (ds ++ rest) = some (digitsVal ds, rest) := by
  cases ds with
  | nil => exact absurd rfl hne
  | cons d ds =>
      have hdd : isDigitByte d = true := hd d (by simp)
      have hsp : isSpaceByte d = false := isSpaceByte_eq_false_of_digit hdd
      have hskip : skipSpaces ((d :: ds) ++ rest) = d :: (ds ++ rest) := by
        simp [skipSpaces, hsp]
      have hback : d :: (ds ++ rest) = (d :: ds) ++ rest := rfl
      unfold scanU
      rw [hskip]
      simp only [hdd, if_true, hback]
      rcases h with h | ⟨h1, h2⟩
      · rw [← h, scanUAux_append_exact (d :: ds) 0 rest hd]
        rfl
      · rw [scanUAux_append_le (d :: ds) w 0 rest h1 hd h2]
        rfl

/-- The value scanUAux accumulates stays below (acc + 1) * 10 ^ width. -/
lemma scanUAux_fst_lt : ∀ (w acc : Nat) (s : List Nat),
    (scanUAux w acc s).1 < (acc + 1) * 10 ^ w := by
  intro w
  induction w with
  | zero =>
      intro acc s
      simp [scanUAux_zero]
  | succ w ih =>
      intro acc s
      have hpow : (1 : Nat) ≤ 10 ^ (w + 1) := Nat.one_le_pow _ _ (by norm_num)
      cases s with
      | nil =>
          rw [scanUAux_nil]
          simp only
          nlinarith
      | cons b rest =>
          rw [scanUAux_cons]
          by_cases hb : isDigitByte b = true
          · have hb9 : b - 48 ≤ 9 := by simp [isDigitByte] at hb; omega
            simp only [hb, if_true]
            calc (scanUAux w (acc * 10 + (b - 48)) rest).1
                < (acc * 10 + (b - 48) + 1) * 10 ^ w := ih _ _
              _ ≤ ((acc + 1) * 10) * 10 ^ w := by
                  exact Nat.mul_le_mul (by omega) (le_refl _)
              _ = (acc + 1) * 10 ^ (w + 1) := by ring
          · have hb' : isDigitByte b = false := by simpa using hb
            simp only [hb', Bool.false_eq_true, if_false]
            show acc < (acc + 1) * 10 ^ (w + 1)
            nlinarith

lemma scanU_fst_lt {w : Nat} {s : List Nat} {v : Nat} {r : List Nat}
    (h : scanU w s = some (v, r)) : v < 10 ^ w := by
  unfold scanU at h
  rcases hs : skipSpaces s with _ | ⟨b, rest⟩ <;> rw [hs] at h
  · simp at h
  · by_cases hb : isDigitByte b = true
    · simp only [hb, if_true, Option.some.injEq] at h
      have := scanUAux_fst_lt w 0 (b :: rest)
      rw [h] at this
      simpa using this
    · simp [hb] at h

/-! ### C-string and list access helpers -/

lemma cstr_append_replicate :
    ∀ (l : List Nat), (∀ b ∈ l, b ≠ 0) → ∀ k, k ≠ 0 →
    cstr (l ++ List.replicate k 0) = l := by
  intro l
  induction l with
  | nil =>
      intro _ k hk
      cases k with
      | zero => exact absurd rfl hk
      | succ k => simp [cstr, List.replicate_succ]
  | cons b l ih =>
      intro h k hk
      have hb : b ≠ 0 := h b (by simp)
      simp only [List.cons_append, cstr, hb, if_false]
      exact congrArg (fun t => b :: t) (ih (fun x hx => h x (by simp [hx])) k hk)

lemma getD_replicate_zero :
    ∀ (k i d : Nat), i < k → (List.replicate k 0).getD i d = 0 := by
  intro k
  induction k with
  | zero => intro i d h; omega
  | succ k ih =>
      intro i d h
      cases i with
      | zero => simp [List.replicate_succ]
      | succ i => simpa [List.replicate_succ] using ih i d (by omega)

/-! ### Full-scanner evaluation on structured buffers -/

lemma scanVIT_spec (ty c f : Nat) (ds rest : List Nat)
    (hc : isDigitByte c = true)
    (hne : ds ≠ []) (hlen : ds.length ≤ 3)
    (hds : ∀ b ∈ ds, isDigitByte b = true)
    (hf : isDigitByte f = true) :
    scanVIT (91 :: ty :: c :: (ds ++ 46 :: f :: rest)) =
      some (ty, c - 48, digitsVal ds, f - 48) := by
  have h1 : scanU 1 (c :: (ds ++ 46 :: f :: rest)) =
      some (c - 48, ds ++ 46 :: f :: rest) := by
    have := scanU_append 1 [c] (ds ++ 46 :: f :: rest) (by simp)
      (by intro b hb; simp at hb; subst hb; exact hc) (Or.inl (by simp))
    simpa [digitsVal, digitsValAux] using this
  have h2 : scanU 3 (ds ++ 46 :: f :: rest) =
      some (digitsVal ds, 46 :: f :: rest) :=
    scanU_append 3 ds (46 :: f :: rest) hne hds
      (Or.inr ⟨hlen, by simp [headNotDigit, isDigitByte]⟩)
  have h3 : scanU 1 (f :: rest) = some (f - 48, rest) := by
    have := scanU_append 1 [f] rest (by simp)
      (by intro b hb; simp at hb; subst hb; exact hf) (Or.inl (by simp))
    simpa [digitsVal, digitsValAux] using this
  simp [scanVIT, matchLit, scanChar, h1, h2, h3]

lemma scanR_spec (ty c : Nat) (ds rest : List Nat)
    (hc : isDigitByte c = true)
    (hne : ds ≠ [])
    (hds : ∀ b ∈ ds, isDigitByte b = true)
    (h : ds.length = 4 ∨ (ds.length ≤ 4 ∧ headNotDigit rest)) :
    scanR (91 :: ty :: c :: (ds ++ rest)) = some (ty, c - 48, digitsVal ds) := by
  have h1 : scanU 1 (c :: (ds ++ rest)) = some (c - 48, ds ++ rest) := by
    have := scanU_append 1 [c] (ds ++ rest) (by simp)
      (by intro b hb; simp at hb; subst hb; exact hc) (Or.inl (by simp))
    simpa [digitsVal, digitsValAux] using this
  have h2 : scanU 4 (ds ++ rest) = some (digitsVal ds, rest) :=
    scanU_append 4 ds rest hne hds h
  simp [scanR, matchLit, scanChar, h1, h2]

lemma scanP_spec (ty c : Nat) (as bs rest : List Nat)
    (hc : isDigitByte c = true)
    (hane : as ≠ []) (halen : as.length ≤ 4)
    (has : ∀ b ∈ as, isDigitByte b = true)
    (hbne : bs ≠ [])
    (hbs : ∀ b ∈ bs, isDigitByte b = true)
    (hb : bs.length = 4 ∨ (bs.length ≤ 4 ∧ headNotDigit rest)) :
    scanP (91 :: ty :: c :: (as ++ 47 :: (bs ++ rest))) =
      some (ty, c - 48, digitsVal as, digitsVal bs) := by
  have h1 : scanU 1 (c :: (as ++ 47 :: (bs ++ rest))) =
      some (c - 48, as ++ 47 :: (bs ++ rest)) := by
    have := scanU_append 1 [c] (as ++ 47 :: (bs ++ rest)) (by simp)
      (by intro b hb; simp at hb; subst hb; exact hc) (Or.inl (by simp))
    simpa [digitsVal, digitsValAux] using this
  have h2 : scanU 4 (as ++ 47 :: (bs ++ rest)) =
      some (digitsVal as, 47 :: (bs ++ rest)) :=
    scanU_append 4 as (47 :: (bs ++ rest)) hane has
      (Or.inr ⟨halen, by simp [headNotDigit, isDigitByte]⟩)
  have h3 : scanU 4 (bs ++ rest) = some (digitsVal bs, rest) :=
    scanU_append 4 bs rest hbne hbs hb
  simp [scanP, matchLit, scanChar, h1, h2, h3]

lemma digit_bounds {b : Nat} (h : isDigitByte b = true) : 48 ≤ b ∧ b ≤ 57 := by
  simpa [isDigitByte] using h

/-- Once the three front checks pass, cmpsu_parse is the type switch. -/
lemma cmpsu_parse_eval (data : List Nat) (h16 : data.length = 16)
    (h15 : data.getD 15 1 = 0) :
    cmpsu_parse data =
      (if data.getD 1 0 = 86 ∨ data.getD 1 0 = 73 ∨ data.getD 1 0 = 84 then
        scanVIT (cstr data)
      else if data.getD 1 0 = 82 then
        (scanR (cstr data)).map (fun x => (x.1, x.2.1, x.2.2, 0))
      else if data.getD 1 0 = 80 then
        if data.getD 2 0 ≠ 50 then none else scanP (cstr data)
      else none) := by
  have e1 : ¬(data.length ≠ 16) := by rw [h16]; exact fun h => h rfl
  have e2 : ¬(data.getD (16 - 1) 1 ≠ 0) := by
    show ¬(data.getD 15 1 ≠ 0)
    rw [h15]
    exact fun h => h rfl
  have e3 : ¬(data.length < 5) := by rw [h16]; omega
  unfold cmpsu_parse EVENT_LEN
  rw [if_neg e1, if_neg e2, if_neg e3]

lemma cmpsu_parse_mkVIT (ty c f : Nat) (ds fs : List Nat)
    (hty : ty = 86 ∨ ty = 73 ∨ ty = 84)
    (hc : isDigitByte c = true)
    (hne : ds ≠ []) (hlen : ds.length ≤ 3)
    (hds : ∀ b ∈ ds, isDigitByte b = true)
    (hf : isDigitByte f = true)
    (hfs : ∀ b ∈ fs, isDigitByte b = true)
    (hsize : ds.length + fs.length ≤ 9) :
    cmpsu_parse (mkVIT ty c ds (f :: fs)) =
      some (ty, c - 48, digitsVal ds, f - 48) := by
  set content : List Nat := 91 :: ty :: c :: (ds ++ 46 :: ((f :: fs) ++ [93]))
    with hcontent
  have hclen : content.length = 6 + ds.length + fs.length := by
    simp only [hcontent, List.length_cons, List.length_append, List.length_nil]
    omega
  have hmk : mkVIT ty c ds (f :: fs) =
      content ++ List.replicate (16 - (5 + ds.length + (f :: fs).length)) 0 := by
    simp [mkVIT, hcontent]
  have hnz : ∀ b ∈ content, b ≠ 0 := by
    intro b hb
    simp only [hcontent, List.mem_cons, List.mem_append, List.mem_singleton, or_assoc] at hb
    rcases hb with h | h | h | h | h | h | h | h
    · omega
    · rcases hty with h2 | h2 | h2 <;> omega
    · have := digit_bounds hc; omega
    · have := digit_bounds (hds b h); omega
    · omega
    · have := digit_bounds hf; omega
    · have := digit_bounds (hfs b h); omega
    · rcases h with h | h
      · omega
      · simp at h
  have hlen16 : (mkVIT ty c ds (f :: fs)).length = 16 := by
    rw [hmk]
    simp only [List.length_append, List.length_replicate, hclen, List.length_cons, List.length_nil]
    omega
  have hfr : (f :: fs).length = fs.length + 1 := List.length_cons f fs
  have hcstr : cstr (mkVIT ty c ds (f :: fs)) = content := by
    rw [hmk]
    exact cstr_append_replicate content hnz _ (by rw [hfr]; omega)
  have h15 : (mkVIT ty c ds (f :: fs)).getD 15 1 = 0 := by
    rw [hmk, List.getD_append_right _ _ _ _ (by rw [hclen]; omega)]
    apply getD_replicate_zero
    rw [hclen, hfr]
    omega
  have hg1 : (mkVIT ty c ds (f :: fs)).getD 1 0 = ty := by
    rw [hmk, List.getD_append _ _ _ _ (by rw [hclen]; omega)]
    simp [hcontent]
  have hscan : scanVIT content = some (ty, c - 48, digitsVal ds, f - 48) := by
    rw [hcontent]
    simp only [List.cons_append, List.nil_append]
    exact scanVIT_spec ty c f ds (fs ++ [93]) hc hne hlen hds hf
  rw [cmpsu_parse_eval _ hlen16 h15, hg1, if_pos hty, hcstr, hscan]

lemma cmpsu_parse_mkR (c : Nat) (ds : List Nat)
    (hc : isDigitByte c = true)
    (hne : ds ≠ []) (hlen : ds.length ≤ 4)
    (hds : ∀ b ∈ ds, isDigitByte b = true) :
    cmpsu_parse (mkR c ds) = some (82, c - 48, digitsVal ds, 0) := by
  set content : List Nat := 91 :: 82 :: c :: (ds ++ [93]) with hcontent
  have hclen : content.length = 4 + ds.length := by
    simp only [hcontent, List.length_cons, List.length_append, List.length_nil]
    omega
  have hmk : mkR c ds =
      content ++ List.replicate (16 - (4 + ds.length)) 0 := by
    simp [mkR, hcontent]
  have hnz : ∀ b ∈ content, b ≠ 0 := by
    intro b hb
    simp only [hcontent, List.mem_cons, List.mem_append, List.mem_singleton, or_assoc] at hb
    rcases hb with h | h | h | h | h
    · omega
    · omega
    · have := digit_bounds hc; omega
    · have := digit_bounds (hds b h); omega
    · rcases h with h | h
      · omega
      · simp at h
  have hlen16 : (mkR c ds).length = 16 := by
    rw [hmk]
    simp only [List.length_append, List.length_replicate, hclen]
    omega
  have hcstr : cstr (mkR c ds) = content := by
    rw [hmk]
    exact cstr_append_replicate content hnz _ (by omega)
  have h15 : (mkR c ds).getD 15 1 = 0 := by
    rw [hmk, List.getD_append_right _ _ _ _ (by rw [hclen]; omega)]
    apply getD_replicate_zero
    rw [hclen]
    omega
  have hg1 : (mkR c ds).getD 1 0 = 82 := by
    rw [hmk, List.getD_append _ _ _ _ (by rw [hclen]; omega)]
    simp [hcontent]
  have hscan : scanR content = some (82, c - 48, digitsVal ds) :=
    scanR_spec 82 c ds [93] hc hne hds
      (Or.inr ⟨hlen, by simp [headNotDigit, isDigitByte]⟩)
  rw [cmpsu_parse_eval _ hlen16 h15, hg1, if_neg (by decide), if_pos rfl,
    hcstr, hscan]
  rfl

lemma cmpsu_parse_mkP (as bs : List Nat)
    (hane : as ≠ []) (halen : as.length ≤ 4)
    (has : ∀ b ∈ as, isDigitByte b = true)
    (hbne : bs ≠ []) (hblen : bs.length ≤ 4)
    (hbs : ∀ b ∈ bs, isDigitByte b = true) :
    cmpsu_parse (mkP as bs) = some (80, 2, digitsVal as, digitsVal bs) := by
  set content : List Nat := 91 :: 80 :: 50 :: (as ++ 47 :: (bs ++ [93]))
    with hcontent
  have hclen : content.length = 5 + as.length + bs.length := by
    simp only [hcontent, List.length_cons, List.length_append, List.length_nil]
    omega
  have hmk : mkP as bs =
      content ++ List.replicate (16 - (5 + as.length + bs.length)) 0 := by
    simp [mkP, hcontent]
  have hnz : ∀ b ∈ content, b ≠ 0 := by
    intro b hb
    simp only [hcontent, List.mem_cons, List.mem_append, List.mem_singleton, or_assoc] at hb
    rcases hb with h | h | h | h | h | h | h
    · omega
    · omega
    · omega
    · have := digit_bounds (has b h); omega
    · omega
    · have := digit_bounds (hbs b h); omega
    · rcases h with h | h
      · omega
      · simp at h
  have hlen16 : (mkP as bs).length = 16 := by
    rw [hmk]
    simp only [List.length_append, List.length_replicate, hclen]
    omega
  have hcstr : cstr (mkP as bs) = content := by
    rw [hmk]
    exact cstr_append_replicate content hnz _ (by omega)
  have h15 : (mkP as bs).getD 15 1 = 0 := by
    rw [hmk, List.getD_append_right _ _ _ _ (by rw [hclen]; omega)]
    apply getD_replicate_zero
    rw [hclen]
    omega
  have hg1 : (mkP as bs).getD 1 0 = 80 := by
    rw [hmk, List.getD_append _ _ _ _ (by rw [hclen]; omega)]
    simp [hcontent]
  have hg2 : (mkP as bs).getD 2 0 = 50 := by
    rw [hmk, List.getD_append _ _ _ _ (by rw [hclen]; omega)]
    simp [hcontent]
  have hscan : scanP content = some (80, 2, digitsVal as, digitsVal bs) := by
    have h50 : isDigitByte 50 = true := by decide
    have := scanP_spec 80 50 as bs [93] h50 hane halen has hbne hbs
      (Or.inr ⟨hblen, by simp [headNotDigit, isDigitByte]⟩)
    simpa using this
  rw [cmpsu_parse_eval _ hlen16 h15, hg1, if_neg (by decide), if_neg (by decide),
    if_pos rfl, hg2, if_neg (by norm_num), hcstr, hscan]

/-! ### Sensor-table update and session lemmas -/

lemma getSlot_init (t : HwmonType) (ch : Nat) :
    getSlot cmpsu_initData t ch = -1 := by
  cases t <;> rfl

lemma cmpsu_hwmon_read_eq (priv : CmpsuData) (t : HwmonType) (ch : Nat)
    (h : ch < typeChannelCount t) :
    cmpsu_hwmon_read priv t ch =
      if getSlot priv t ch = -1 then .error (-ENODATA)
      else .ok (getSlot priv t ch) := by
  cases t <;>
    simp only [typeChannelCount, COUNT_VOLTAGE, COUNT_CURRENT, COUNT_POWER,
      COUNT_TEMP, COUNT_FAN] at h
  case hwmon_other => exact absurd h (by omega)
  all_goals
    simp [cmpsu_hwmon_read, getSlot, COUNT_VOLTAGE, COUNT_CURRENT, COUNT_POWER,
      COUNT_TEMP, COUNT_FAN, h]

lemma getSlot_raw_event (priv : CmpsuData) (data : List Nat) (t : HwmonType)
    (ch : Nat) :
    getSlot (cmpsu_raw_event priv data) t ch =
      (cmpsu_writeOf data t ch).getD (getSlot priv t ch) := by
  unfold cmpsu_raw_event cmpsu_writeOf
  cases hp : cmpsu_parse data with
  | none => simp
  | some q =>
      obtain ⟨ty, c, v1, v2⟩ := q
      simp only
      unfold cmpsu_store
      split_ifs with h1 h2 h3 h4 h5 h6 h7 h8 h9 h10 <;>
        cases t <;>
        simp_all [getSlot, Function.update_apply, COUNT_VOLTAGE, COUNT_CURRENT,
          COUNT_POWER, COUNT_TEMP, COUNT_FAN] <;>
        omega

lemma cmpsu_writeOf_nonneg {data : List Nat} {t : HwmonType} {ch : Nat} {v : Int}
    (h : cmpsu_writeOf data t ch = some v) : 0 ≤ v := by
  unfold cmpsu_writeOf at h
  cases hp : cmpsu_parse data with
  | none => rw [hp] at h; simp at h
  | some q =>
      obtain ⟨ty, c, v1, v2⟩ := q
      rw [hp] at h
      simp only at h
      split_ifs at h <;> simp_all <;> omega

lemma lastWrite_cons (t : HwmonType) (ch : Nat) (m : List Nat)
    (rest : List (List Nat)) :
    lastWrite t ch (m :: rest) =
      match lastWrite t ch rest with
      | some v => some v
      | none => cmpsu_writeOf m t ch := rfl

lemma foldl_getSlot :
    ∀ (msgs : List (List Nat)) (s : CmpsuData) (t : HwmonType) (ch : Nat),
    getSlot (msgs.foldl cmpsu_raw_event s) t ch =
      (lastWrite t ch msgs).getD (getSlot s t ch) := by
  intro msgs
  induction msgs with
  | nil => intro s t ch; simp [lastWrite]
  | cons m rest ih =>
      intro s t ch
      rw [List.foldl_cons, ih (cmpsu_raw_event s m) t ch, getSlot_raw_event,
        lastWrite_cons]
      cases hl : lastWrite t ch rest <;> simp [hl]

lemma lastWrite_nonneg :
    ∀ {msgs : List (List Nat)} {t : HwmonType} {ch : Nat} {v : Int},
    lastWrite t ch msgs = some v → 0 ≤ v := by
  intro msgs
  induction msgs with
  | nil => intro t ch v h; simp [lastWrite] at h
  | cons m rest ih =>
      intro t ch v h
      rw [lastWrite_cons] at h
      cases hl : lastWrite t ch rest with
      | some w =>
          rw [hl] at h
          simp at h
          subst h
          exact ih hl
      | none =>
          rw [hl] at h
          simp at h
          exact cmpsu_writeOf_nonneg h

lemma lastWrite_append (t : HwmonType) (ch : Nat) :
    ∀ (xs ys : List (List Nat)),
    lastWrite t ch (xs ++ ys) =
      match lastWrite t ch ys with
      | some v => some v
      | none => lastWrite t ch xs := by
  intro xs
  induction xs with
  | nil =>
      intro ys
      cases hy : lastWrite t ch ys <;> simp [lastWrite, hy]
  | cons x xs ih =>
      intro ys
      rw [List.cons_append, lastWrite_cons, ih ys, lastWrite_cons]
      cases hy : lastWrite t ch ys <;> cases hx : lastWrite t ch xs <;> simp

/-! ### Channel bounds and rejection lemmas -/

lemma scanVIT_channel_lt {s : List Nat} {ty ch v1 v2 : Nat}
    (h : scanVIT s = some (ty, ch, v1, v2)) : ch < 10 := by
  simp only [scanVIT, Option.bind_eq_bind', Option.bind_eq_some',
    Option.pure_def, Option.some.injEq, Prod.mk.injEq] at h
  obtain ⟨s1, h1, ⟨t2, s2⟩, h2, ⟨c3, s3⟩, h3, ⟨v4, s4⟩, h4, s5, h5, ⟨v6, s6⟩, h6,
    hty, hch, hv1, hv2⟩ := h
  have := scanU_fst_lt h3
  simp only at hch
  omega

lemma scanR_channel_lt {s : List Nat} {ty ch v1 : Nat}
    (h : scanR s = some (ty, ch, v1)) : ch < 10 := by
  simp only [scanR, Option.bind_eq_bind', Option.bind_eq_some',
    Option.pure_def, Option.some.injEq, Prod.mk.injEq] at h
  obtain ⟨s1, h1, ⟨t2, s2⟩, h2, ⟨c3, s3⟩, h3, ⟨v4, s4⟩, h4, hty, hch, hv1⟩ := h
  have := scanU_fst_lt h3
  simp only at hch
  omega

lemma scanP_channel_lt {s : List Nat} {ty ch v1 v2 : Nat}
    (h : scanP s = some (ty, ch, v1, v2)) : ch < 10 := by
  simp only [scanP, Option.bind_eq_bind', Option.bind_eq_some',
    Option.pure_def, Option.some.injEq, Prod.mk.injEq] at h
  obtain ⟨s1, h1, ⟨t2, s2⟩, h2, ⟨c3, s3⟩, h3, ⟨v4, s4⟩, h4, s5, h5, ⟨v6, s6⟩, h6,
    hty, hch, hv1, hv2⟩ := h
  have := scanU_fst_lt h3
  simp only at hch
  omega

/-- Whatever the buffer, a successfully parsed channel is a single digit. -/
lemma cmpsu_parse_channel_lt {data : List Nat} {ty c v1 v2 : Nat}
    (h : cmpsu_parse data = some (ty, c, v1, v2)) : c < 10 := by
  simp only [cmpsu_parse] at h
  split_ifs at h <;> try simp at h
  · exact scanVIT_channel_lt h
  · obtain ⟨a, a1, b, ha, _, hc0, _, _⟩ := h
    have := scanR_channel_lt ha
    omega
  · exact scanP_channel_lt h

lemma scanVIT_eq_none {s : List Nat} (h : matchLit 91 s = none) :
    scanVIT s = none := by
  simp [scanVIT, h]

lemma scanR_eq_none {s : List Nat} (h : matchLit 91 s = none) :
    scanR s = none := by
  simp [scanR, h]

lemma scanP_eq_none {s : List Nat} (h : matchLit 91 s = none) :
    scanP s = none := by
  simp [scanP, h]

/-- Any buffer whose first byte is not the open bracket fails to parse. -/
lemma cmpsu_parse_eq_none_head {data : List Nat} (h : data.getD 0 0 ≠ 91) :
    cmpsu_parse data = none := by
  by_cases h16 : data.length = 16
  · cases data with
    | nil => simp at h16
    | cons d0 rest =>
        have hd0 : d0 ≠ 91 := by simpa using h
        have hm : matchLit 91 (cstr (d0 :: rest)) = none := by
          by_cases hz : d0 = 0
          · subst hz; simp [cstr, matchLit]
          · simp [cstr, hz, matchLit, hd0]
        simp only [cmpsu_parse]
        split_ifs <;>
          simp [scanVIT_eq_none hm, scanR_eq_none hm, scanP_eq_none hm]
  · simp [cmpsu_parse, EVENT_LEN, h16]

/-- A power packet for channel 1 fails the data[2] check and parses to
nothing. -/
lemma cmpsu_parse_eq_none_P1 {data : List Nat}
    (h1 : data.getD 1 0 = 80) (h2 : data.getD 2 0 = 49) :
    cmpsu_parse data = none := by
  simp only [cmpsu_parse]
  split_ifs <;> first | rfl | simp_all

/-- A parsed packet whose channel is zero or above the per-type count is
dropped by the store switch. -/
lemma cmpsu_raw_event_reject {priv : CmpsuData} {data : List Nat}
    {ty c v1 v2 : Nat}
    (hp : cmpsu_parse data = some (ty, c, v1, v2))
    (hc : c = 0 ∨ byteTypeCount ty < c) :
    cmpsu_raw_event priv data = priv := by
  have hlt : c < 10 := cmpsu_parse_channel_lt hp
  have hstep : cmpsu_raw_event priv data =
      cmpsu_store priv ty ((c + 4294967295) % 4294967296) v1 v2 := by
    unfold cmpsu_raw_event
    rw [hp]
  rw [hstep]
  unfold cmpsu_store
  split_ifs with h1 h2 h3 h4 h5 h6 h7 h8 h9 h10 <;>
    first
      | rfl
      | (exfalso
         simp_all [byteTypeCount, COUNT_VOLTAGE, COUNT_CURRENT, COUNT_POWER,
           COUNT_TEMP, COUNT_FAN] <;> omega)

/-! ### Accepted packets end to end -/

lemma digitsVal_lt (ds : List Nat) (hds : ∀ b ∈ ds, isDigitByte b = true) :
    digitsVal ds < 10 ^ ds.length := by
  have h := scanUAux_append_exact ds 0 [] hds
  have h2 := scanUAux_fst_lt ds.length 0 (ds ++ [])
  rw [h] at h2
  simpa [digitsVal] using h2

lemma vit_read_master (s : CmpsuData) (ty c f : Nat) (ds fs : List Nat)
    (hty : ty = 86 ∨ ty = 73 ∨ ty = 84)
    (hc49 : 49 ≤ c) (hcr : c ≤ 48 + typeChannelCount (vitCat ty))
    (hne : ds ≠ []) (hlen : ds.length ≤ 3)
    (hds : ∀ b ∈ ds, isDigitByte b = true)
    (hf : isDigitByte f = true)
    (hfs : ∀ b ∈ fs, isDigitByte b = true)
    (hsize : ds.length + fs.length ≤ 9) :
    cmpsu_hwmon_read (cmpsu_raw_event s (mkVIT ty c ds (f :: fs)))
      (vitCat ty) (c - 49) =
      .ok ((digitsVal ds * 1000 + (f - 48) * 100 : Nat) : Int) := by
  have hdv : digitsVal ds < 1000 := by
    have h1 := digitsVal_lt ds hds
    have h2 : 10 ^ ds.length ≤ 10 ^ 3 := Nat.pow_le_pow_right (by norm_num) hlen
    omega
  have hf9 : f - 48 ≤ 9 := by have := digit_bounds hf; omega
  have hcd : isDigitByte c = true := by
    have h5 : typeChannelCount (vitCat ty) ≤ 5 := by
      rcases hty with h | h | h <;> subst h <;> decide
    simp only [isDigitByte, Bool.and_eq_true, decide_eq_true_eq]
    omega
  have hc57 : c ≤ 57 := (digit_bounds hcd).2
  have hstep : cmpsu_raw_event s (mkVIT ty c ds (f :: fs)) =
      cmpsu_store s ty ((c - 48 + 4294967295) % 4294967296)
        (digitsVal ds) (f - 48) := by
    unfold cmpsu_raw_event
    rw [cmpsu_parse_mkVIT ty c f ds fs hty hcd hne hlen hds hf hfs hsize]
  have hch : (c - 48 + 4294967295) % 4294967296 = c - 49 := by omega
  rw [hstep, hch]
  have hmod : (digitsVal ds * 1000 + (f - 48) * 100) % 4294967296 =
      digitsVal ds * 1000 + (f - 48) * 100 := Nat.mod_eq_of_lt (by omega)
  have hne1 : ¬((digitsVal ds : Int) * 1000 + ((f - 48 : Nat) : Int) * 100 = -1) := by
    omega
  rcases hty with h | h | h <;> subst h
  · have hcr5 : c ≤ 53 := by
      simpa [vitCat, typeChannelCount, COUNT_VOLTAGE] using hcr
    have hif : ¬(5 ≤ c - 49) := by omega
    simp [cmpsu_store, hif, vitCat, cmpsu_hwmon_read, COUNT_VOLTAGE,
      show c - 49 < 5 by omega, Function.update_same, hmod, hne1]
  · have hcr5 : c ≤ 53 := by
      simpa [vitCat, typeChannelCount, COUNT_CURRENT] using hcr
    have hif : ¬(5 ≤ c - 49) := by omega
    simp [cmpsu_store, hif, vitCat, cmpsu_hwmon_read, COUNT_CURRENT,
      show c - 49 < 5 by omega, Function.update_same, hmod, hne1]
  · have hcr2 : c ≤ 50 := by
      simpa [vitCat, typeChannelCount, COUNT_TEMP] using hcr
    have hif : ¬(2 ≤ c - 49) := by omega
    simp [cmpsu_store, hif, vitCat, cmpsu_hwmon_read, COUNT_TEMP,
      show c - 49 < 2 by omega, Function.update_same, hmod, hne1]

lemma r_read_master (s : CmpsuData) (ds : List Nat)
    (hne : ds ≠ []) (hlen : ds.length ≤ 4)
    (hds : ∀ b ∈ ds, isDigitByte b = true) :
    cmpsu_hwmon_read (cmpsu_raw_event s (mkR 49 ds)) .hwmon_fan 0 =
      .ok ((digitsVal ds : Nat) : Int) := by
  have hstep : cmpsu_raw_event s (mkR 49 ds) =
      cmpsu_store s 82 ((49 - 48 + 4294967295) % 4294967296) (digitsVal ds) 0 := by
    unfold cmpsu_raw_event
    rw [cmpsu_parse_mkR 49 ds (by decide) hne hlen hds]
  have hch : (49 - 48 + 4294967295) % 4294967296 = 0 := by norm_num
  have hne1 : ((digitsVal ds : Nat) : Int) ≠ -1 := by omega
  rw [hstep, hch]
  simp [cmpsu_store, COUNT_FAN, cmpsu_hwmon_read, Function.update_same, hne1]

lemma p_read_master (s : CmpsuData) (as bs : List Nat)
    (hane : as ≠ []) (halen : as.length ≤ 4)
    (has : ∀ b ∈ as, isDigitByte b = true)
    (hbne : bs ≠ []) (hblen : bs.length ≤ 4)
    (hbs : ∀ b ∈ bs, isDigitByte b = true) :
    cmpsu_hwmon_read (cmpsu_raw_event s (mkP as bs)) .hwmon_power 0 =
      .ok (((digitsVal as * 1000000) % 4294967296 : Nat) : Int) ∧
    cmpsu_hwmon_read (cmpsu_raw_event s (mkP as bs)) .hwmon_power 1 =
      .ok (((digitsVal bs * 1000000) % 4294967296 : Nat) : Int) := by
  have hstep : cmpsu_raw_event s (mkP as bs) =
      cmpsu_store s 80 ((2 + 4294967295) % 4294967296)
        (digitsVal as) (digitsVal bs) := by
    unfold cmpsu_raw_event
    rw [cmpsu_parse_mkP as bs hane halen has hbne hblen hbs]
  have hch : (2 + 4294967295) % 4294967296 = 1 := by norm_num
  have hnea : ¬((digitsVal as : Int) * 1000000 % 4294967296 = -1) := by
    omega
  have hneb : ¬((digitsVal bs : Int) * 1000000 % 4294967296 = -1) := by
    omega
  rw [hstep, hch]
  constructor
  · simp [cmpsu_store, COUNT_POWER, cmpsu_hwmon_read, Function.update_apply,
      hnea]
  · simp [cmpsu_store, COUNT_POWER, cmpsu_hwmon_read, Function.update_apply,
      hneb]

lemma cmpsu_hwmon_read_ok {priv : CmpsuData} {t : HwmonType} {ch : Nat} {v : Int}
    (h : cmpsu_hwmon_read priv t ch = .ok v) :
    getSlot priv t ch = v ∧ v ≠ -1 := by
  cases t <;>
    simp only [cmpsu_hwmon_read, getSlot] at h ⊢ <;>
    first
      | (split_ifs at h <;> simp_all)
      | simp_all

/-! ### Claim theorems -/

/-- Claim C1, counterexample: the well-formed packet [V11234.5] (type V,
channel 1, four-digit integer part 1234, one fractional digit 5, padded to
the 16-byte event) is claimed to be accepted with value 1234*1000+5*100.
The code rejects it: the %03u conversion consumes only the first three
integer digits and the dot literal then fails to match, so the table is
untouched and the voltage slot still reports no data. -/
theorem c1_counterexample :
    cmpsu_raw_event cmpsu_initData
        [91, 86, 49, 49, 50, 51, 52, 46, 53, 93, 0, 0, 0, 0, 0, 0] =
      cmpsu_initData ∧
    cmpsu_hwmon_read (cmpsu_raw_event cmpsu_initData
        [91, 86, 49, 49, 50, 51, 52, 46, 53, 93, 0, 0, 0, 0, 0, 0])
      HwmonType.hwmon_in 0 = .error (-ENODATA) :=
  ⟨rfl, rfl⟩

/-- Claim C1 as amended: for every V/I/T packet whose integer part has at
most three decimal digits (and an in-range channel digit and one fractional
digit), decode accepts the buffer and read of that (category, channel)
returns exactly d*1000 + f*100, from any prior table state. -/
theorem c1_amended (s : CmpsuData) (ty c f : Nat) (ds : List Nat)
    (hty : ty = 86 ∨ ty = 73 ∨ ty = 84)
    (hc49 : 49 ≤ c) (hcr : c ≤ 48 + typeChannelCount (vitCat ty))
    (hne : ds ≠ []) (hlen : ds.length ≤ 3)
    (hds : ∀ b ∈ ds, isDigitByte b = true)
    (hf : isDigitByte f = true) :
    cmpsu_hwmon_read (cmpsu_raw_event s (mkVIT ty c ds [f]))
      (vitCat ty) (c - 49) =
      .ok ((digitsVal ds * 1000 + (f - 48) * 100 : Nat) : Int) :=
  vit_read_master s ty c f ds [] hty hc49 hcr hne hlen hds hf
    (by intro b hb; simp at hb) (by simp only [List.length_nil]; omega)

/-- Claim C1 witness: the packet [V1012.5] read back as 12500 on voltage
channel 0. -/
theorem c1_witness :
    cmpsu_hwmon_read (cmpsu_raw_event cmpsu_initData
        (mkVIT 86 49 [48, 49, 50] [53])) (vitCat 86) 0 = .ok 12500 := by
  have h := c1_amended cmpsu_initData 86 49 53 [48, 49, 50] (Or.inl rfl)
    (by decide) (by decide) (by decide) (by decide) (by decide) (by decide)
  simpa [digitsVal, digitsValAux] using h

/-- Claim C2, counterexample: the spec's own example buffer
[P2001234/005678] is 17 bytes long, which already fails the size == 16
check; decode drops it, no reading is produced, and power channel 0 still
reports no data instead of the claimed 1234000 (the six-digit fields would
also overrun the %04u width). -/
theorem c2_counterexample :
    cmpsu_raw_event cmpsu_initData
        [91, 80, 50, 48, 48, 49, 50, 51, 52, 47, 48, 48, 53, 54, 55, 56, 93] =
      cmpsu_initData ∧
    cmpsu_hwmon_read (cmpsu_raw_event cmpsu_initData
        [91, 80, 50, 48, 48, 49, 50, 51, 52, 47, 48, 48, 53, 54, 55, 56, 93])
      HwmonType.hwmon_power 0 = .error (-ENODATA) :=
  ⟨rfl, rfl⟩

/-- Claim C2 as amended: for a power packet [P2{a}/{b}] whose two fields
have at most four digits each (so that the %04u conversions consume them
whole and the / literal matches), one decode call sets power channel 0 to
(a*1,000,000) mod 2^32 and power channel 1 to (b*1,000,000) mod 2^32 - the
product is computed in C unsigned int arithmetic, so it is exactly
a*1,000,000 only when that fits in 32 bits. -/
theorem c2_amended (s : CmpsuData) (as bs : List Nat)
    (hane : as ≠ []) (halen : as.length ≤ 4)
    (has : ∀ b ∈ as, isDigitByte b = true)
    (hbne : bs ≠ []) (hblen : bs.length ≤ 4)
    (hbs : ∀ b ∈ bs, isDigitByte b = true) :
    cmpsu_hwmon_read (cmpsu_raw_event s (mkP as bs)) .hwmon_power 0 =
      .ok (((digitsVal as * 1000000) % 4294967296 : Nat) : Int) ∧
    cmpsu_hwmon_read (cmpsu_raw_event s (mkP as bs)) .hwmon_power 1 =
      .ok (((digitsVal bs * 1000000) % 4294967296 : Nat) : Int) :=
  p_read_master s as bs hane halen has hbne hblen hbs

/-- Claim C2 witness: [P21234/0567] sets power channel 0 to 1234000000 and
power channel 1 to 567000000. -/
theorem c2_witness :
    cmpsu_hwmon_read (cmpsu_raw_event cmpsu_initData
        (mkP [49, 50, 51, 52] [48, 53, 54, 55])) .hwmon_power 0 =
      .ok 1234000000 ∧
    cmpsu_hwmon_read (cmpsu_raw_event cmpsu_initData
        (mkP [49, 50, 51, 52] [48, 53, 54, 55])) .hwmon_power 1 =
      .ok 567000000 := by
  have h := c2_amended cmpsu_initData [49, 50, 51, 52] [48, 53, 54, 55]
    (by decide) (by decide) (by decide) (by decide) (by decide) (by decide)
  simpa [digitsVal, digitsValAux] using h

/-- Claim C3, counterexample: the spec says the buffer [R101200] sets fan
channel 0 to 1200, but the %04u conversion reads only the first four digits
of the five-digit field 01200, so the code stores 120. -/
theorem c3_counterexample :
    cmpsu_hwmon_read (cmpsu_raw_event cmpsu_initData
        [91, 82, 49, 48, 49, 50, 48, 48, 93, 0, 0, 0, 0, 0, 0, 0])
      HwmonType.hwmon_fan 0 = .ok 120 ∧ (120 : Int) ≠ 1200 :=
  ⟨rfl, by decide⟩

/-- Claim C3 as amended: for a fan packet [R1{n}] whose integer field has
at most four digits, decode stores the value n unscaled and read returns
it; with a longer field only the first four digits are read (so [R101200]
yields 120, not 1200). -/
theorem c3_amended (s : CmpsuData) (ds : List Nat)
    (hne : ds ≠ []) (hlen : ds.length ≤ 4)
    (hds : ∀ b ∈ ds, isDigitByte b = true) :
    cmpsu_hwmon_read (cmpsu_raw_event s (mkR 49 ds)) .hwmon_fan 0 =
      .ok ((digitsVal ds : Nat) : Int) :=
  r_read_master s ds hne hlen hds

/-- Claim C3 witness: [R11200] read back as 1200 on the fan channel. -/
theorem c3_witness :
    cmpsu_hwmon_read (cmpsu_raw_event cmpsu_initData
        (mkR 49 [49, 50, 48, 48])) .hwmon_fan 0 = .ok 1200 := by
  have h := c3_amended cmpsu_initData [49, 50, 48, 48]
    (by decide) (by decide) (by decide)
  simpa [digitsVal, digitsValAux] using h

/-- Claim C4, counterexample: the 16-byte buffer holding [V1012.5 with no
closing bracket (NUL padded) is accepted: all four conversions succeed
before the ] literal is ever checked, so voltage channel 0 is set to 12500
despite the missing bracket. -/
theorem c4_counterexample :
    (93 ∉ [91, 86, 49, 48, 49, 50, 46, 53, 0, 0, 0, 0, 0, 0, 0, 0]) ∧
    cmpsu_hwmon_read (cmpsu_raw_event cmpsu_initData
        [91, 86, 49, 48, 49, 50, 46, 53, 0, 0, 0, 0, 0, 0, 0, 0])
      HwmonType.hwmon_in 0 = .ok 12500 :=
  ⟨by decide, rfl⟩

/-- Claim C4 as amended: every buffer that does not start with the byte [
is rejected with no table mutation, whatever the type letter; the closing
] is not verified, because it sits after the last conversion the return
value counts. -/
theorem c4_amended (priv : CmpsuData) (data : List Nat)
    (h : data.getD 0 0 ≠ 91) :
    cmpsu_raw_event priv data = priv := by
  unfold cmpsu_raw_event
  rw [cmpsu_parse_eq_none_head h]

/-- Claim C4 witness: an all-zero event leaves the table untouched. -/
theorem c4_witness :
    cmpsu_raw_event cmpsu_initData (List.replicate 16 0) = cmpsu_initData :=
  c4_amended cmpsu_initData (List.replicate 16 0) (by decide)

/-- Claim C5: every slot starts unset (-1) after probe; after any message
sequence the slot holds exactly the latest decoded write to it, so a slot
with no write still reports no data, a slot with at least one write reads
back the most recently applied value, and once a write has happened no
extension of the session can make the slot report no data again. -/
theorem c5_slot_lifecycle (msgs : List (List Nat)) (t : HwmonType) (ch : Nat)
    (h : ch < typeChannelCount t) :
    getSlot cmpsu_initData t ch = -1 ∧
    getSlot (runMsgs msgs) t ch = (lastWrite t ch msgs).getD (-1) ∧
    (lastWrite t ch msgs = none →
      cmpsu_hwmon_read (runMsgs msgs) t ch = .error (-ENODATA)) ∧
    (∀ v, lastWrite t ch msgs = some v →
      cmpsu_hwmon_read (runMsgs msgs) t ch = .ok v) ∧
    (∀ more, lastWrite t ch msgs ≠ none →
      cmpsu_hwmon_read (runMsgs (msgs ++ more)) t ch ≠ .error (-ENODATA)) := by
  have hslot : getSlot (runMsgs msgs) t ch = (lastWrite t ch msgs).getD (-1) := by
    rw [runMsgs, foldl_getSlot msgs cmpsu_initData t ch, getSlot_init]
  refine ⟨getSlot_init t ch, hslot, ?_, ?_, ?_⟩
  · intro hnone
    rw [cmpsu_hwmon_read_eq _ _ _ h, hslot, hnone]
    simp
  · intro v hv
    have hvnn : 0 ≤ v := lastWrite_nonneg hv
    rw [cmpsu_hwmon_read_eq _ _ _ h, hslot, hv]
    simp only [Option.getD_some]
    rw [if_neg (by omega)]
  · intro more hset
    have hslot2 : getSlot (runMsgs (msgs ++ more)) t ch =
        (lastWrite t ch (msgs ++ more)).getD (-1) := by
      rw [runMsgs, foldl_getSlot (msgs ++ more) cmpsu_initData t ch, getSlot_init]
    rw [cmpsu_hwmon_read_eq _ _ _ h, hslot2, lastWrite_append]
    cases hm : lastWrite t ch more with
    | some w =>
        have hw : 0 ≤ w := lastWrite_nonneg hm
        simp only [Option.getD_some]
        rw [if_neg (by omega)]
        simp
    | none =>
        cases hv : lastWrite t ch msgs with
        | none => exact absurd hv hset
        | some v =>
            have hvnn : 0 ≤ v := lastWrite_nonneg hv
            simp only [Option.getD_some]
            rw [if_neg (by omega)]
            simp

/-- Claim C5 witness: on voltage channel 0, the fresh table reports no data,
and after one [V1012.5] event it reads back 12500. -/
theorem c5_witness :
    getSlot cmpsu_initData HwmonType.hwmon_in 0 = -1 ∧
    getSlot (runMsgs [[91, 86, 49, 48, 49, 50, 46, 53, 93, 0, 0, 0, 0, 0, 0, 0]])
        HwmonType.hwmon_in 0 =
      (lastWrite HwmonType.hwmon_in 0
        [[91, 86, 49, 48, 49, 50, 46, 53, 93, 0, 0, 0, 0, 0, 0, 0]]).getD (-1) ∧
    (lastWrite HwmonType.hwmon_in 0
        [[91, 86, 49, 48, 49, 50, 46, 53, 93, 0, 0, 0, 0, 0, 0, 0]] = none →
      cmpsu_hwmon_read
        (runMsgs [[91, 86, 49, 48, 49, 50, 46, 53, 93, 0, 0, 0, 0, 0, 0, 0]])
        HwmonType.hwmon_in 0 = .error (-ENODATA)) ∧
    (∀ v, lastWrite HwmonType.hwmon_in 0
        [[91, 86, 49, 48, 49, 50, 46, 53, 93, 0, 0, 0, 0, 0, 0, 0]] = some v →
      cmpsu_hwmon_read
        (runMsgs [[91, 86, 49, 48, 49, 50, 46, 53, 93, 0, 0, 0, 0, 0, 0, 0]])
        HwmonType.hwmon_in 0 = .ok v) ∧
    (∀ more, lastWrite HwmonType.hwmon_in 0
        [[91, 86, 49, 48, 49, 50, 46, 53, 93, 0, 0, 0, 0, 0, 0, 0]] ≠ none →
      cmpsu_hwmon_read
        (runMsgs ([[91, 86, 49, 48, 49, 50, 46, 53, 93, 0, 0, 0, 0, 0, 0, 0]] ++ more))
        HwmonType.hwmon_in 0 ≠ .error (-ENODATA)) :=
  c5_slot_lifecycle [[91, 86, 49, 48, 49, 50, 46, 53, 93, 0, 0, 0, 0, 0, 0, 0]]
    HwmonType.hwmon_in 0 (by decide)

/-- Claim C6: any event whose parsed channel digit is 0, or whose one-based
channel exceeds the fixed count of the type's category (Voltage 5,
Current 5, Temperature 2, FanSpeed 1, Power 2), is dropped with no table
mutation, whatever the parsed payload values. -/
theorem c6_channel_range_reject (priv : CmpsuData) (data : List Nat)
    (ty c v1 v2 : Nat)
    (hp : cmpsu_parse data = some (ty, c, v1, v2))
    (hc : c = 0 ∨ byteTypeCount ty < c) :
    cmpsu_raw_event priv data = priv :=
  cmpsu_raw_event_reject hp hc

/-- Claim C6 witness: [V6012.5] parses with channel 6 > 5 and leaves the
table untouched. -/
theorem c6_witness :
    cmpsu_raw_event cmpsu_initData
        [91, 86, 54, 48, 49, 50, 46, 53, 93, 0, 0, 0, 0, 0, 0, 0] =
      cmpsu_initData :=
  c6_channel_range_reject cmpsu_initData
    [91, 86, 54, 48, 49, 50, 46, 53, 93, 0, 0, 0, 0, 0, 0, 0]
    86 6 12 5 rfl (Or.inr (by decide))

/-- Claim C7: a V/I/T packet with more than one fractional digit is still
accepted, and only the first fractional digit contributes: read returns
d*1000 + f1*100, the extra digits being dropped (the %1u conversion reads
one digit and the unmatched rest merely fails the trailing ] literal,
which the conversion count never sees). -/
theorem c7_extra_fraction (s : CmpsuData) (ty c f f2 : Nat) (ds fs : List Nat)
    (hty : ty = 86 ∨ ty = 73 ∨ ty = 84)
    (hc49 : 49 ≤ c) (hcr : c ≤ 48 + typeChannelCount (vitCat ty))
    (hne : ds ≠ []) (hlen : ds.length ≤ 3)
    (hds : ∀ b ∈ ds, isDigitByte b = true)
    (hf : isDigitByte f = true)
    (hf2 : isDigitByte f2 = true)
    (hfs : ∀ b ∈ fs, isDigitByte b = true)
    (hsize : ds.length + fs.length ≤ 8) :
    cmpsu_hwmon_read (cmpsu_raw_event s (mkVIT ty c ds (f :: f2 :: fs)))
      (vitCat ty) (c - 49) =
      .ok ((digitsVal ds * 1000 + (f - 48) * 100 : Nat) : Int) :=
  vit_read_master s ty c f ds (f2 :: fs) hty hc49 hcr hne hlen hds hf
    (by
      intro b hb
      rcases List.mem_cons.mp hb with h | h
      · subst h; exact hf2
      · exact hfs b h)
    (by simp only [List.length_cons]; omega)

/-- Claim C7 witness: [V1012.55] is accepted and reads back 12500, the
second fractional 5 being dropped. -/
theorem c7_witness :
    cmpsu_hwmon_read (cmpsu_raw_event cmpsu_initData
        (mkVIT 86 49 [48, 49, 50] [53, 53])) (vitCat 86) 0 = .ok 12500 := by
  have h := c7_extra_fraction cmpsu_initData 86 49 53 53 [48, 49, 50] []
    (Or.inl rfl) (by decide) (by decide) (by decide) (by decide) (by decide)
    (by decide) (by decide) (by intro b hb; simp at hb) (by decide)
  simpa [digitsVal, digitsValAux] using h

/-- Claim C8: every power event for channel 1 is rejected by the data[2]
check before sscanf even runs - whatever the payload - and the result is
indistinguishable from a malformed-packet rejection: the table is returned
unchanged. -/
theorem c8_p1_rejected (priv : CmpsuData) (data : List Nat)
    (h1 : data.getD 1 0 = 80) (h2 : data.getD 2 0 = 49) :
    cmpsu_raw_event priv data = priv := by
  unfold cmpsu_raw_event
  rw [cmpsu_parse_eq_none_P1 h1 h2]

/-- Claim C8 witness: [P1999999] leaves the table untouched. -/
theorem c8_witness :
    cmpsu_raw_event cmpsu_initData
        [91, 80, 49, 57, 57, 57, 57, 57, 57, 93, 0, 0, 0, 0, 0, 0] =
      cmpsu_initData :=
  c8_p1_rejected cmpsu_initData
    [91, 80, 49, 57, 57, 57, 57, 57, 57, 93, 0, 0, 0, 0, 0, 0] rfl rfl

/-- Claim C9, counterexample: temperature channel 0 is in range (and
exposed by is_visible), yet the label query returns the unsupported error
-EOPNOTSUPP rather than a fixed name: the driver provides labels only for
voltage, current and power. -/
theorem c9_counterexample :
    cmpsu_hwmon_read_string HwmonType.hwmon_temp .label 0 =
      .error (-EOPNOTSUPP) ∧
    cmpsu_hwmon_is_visible HwmonType.hwmon_temp 0 ≠ 0 :=
  ⟨rfl, by decide⟩

/-- Claim C9 as amended: is_visible exposes exactly the channels below the
category count; read on an in-range channel never returns the unsupported
error, only the latest value or the no-data error; and the label query
returns the fixed static name for in-range voltage, current and power
channels (temperature and fan have no labels and answer -EOPNOTSUPP). -/
theorem c9_amended (t : HwmonType) (ch : Nat) (s : CmpsuData) :
    (cmpsu_hwmon_is_visible t ch ≠ 0 ↔ ch < typeChannelCount t) ∧
    (ch < typeChannelCount t →
      cmpsu_hwmon_read s t ch =
        (if getSlot s t ch = -1 then .error (-ENODATA)
         else .ok (getSlot s t ch)) ∧
      cmpsu_hwmon_read s t ch ≠ .error (-EOPNOTSUPP)) ∧
    (ch < COUNT_VOLTAGE →
      cmpsu_hwmon_read_string .hwmon_in .label ch =
        .ok (cmpsu_labels_voltage.getD ch "")) ∧
    (ch < COUNT_CURRENT →
      cmpsu_hwmon_read_string .hwmon_curr .label ch =
        .ok (cmpsu_labels_current.getD ch "")) ∧
    (ch < COUNT_POWER →
      cmpsu_hwmon_read_string .hwmon_power .label ch =
        .ok (cmpsu_labels_power.getD ch "")) := by
  refine ⟨?_, ?_, ?_, ?_, ?_⟩
  · cases t <;>
      simp only [cmpsu_hwmon_is_visible, typeChannelCount, COUNT_VOLTAGE,
        COUNT_CURRENT, COUNT_POWER, COUNT_TEMP, COUNT_FAN] <;>
      first
        | (split_ifs with hh <;> simp [hh])
        | (constructor
           · intro hx; exact absurd rfl hx
           · intro hx; exact absurd hx (by omega))
  · intro h
    refine ⟨cmpsu_hwmon_read_eq s t ch h, ?_⟩
    rw [cmpsu_hwmon_read_eq s t ch h]
    split_ifs <;> simp [ENODATA, EOPNOTSUPP]
  · intro h
    simp [cmpsu_hwmon_read_string, h]
  · intro h
    simp [cmpsu_hwmon_read_string, h]
  · intro h
    simp [cmpsu_hwmon_read_string, h]

/-- Claim C9 witness: voltage channel 0 is exposed, read on the fresh table
answers no-data (not unsupported), and the label is V_AC. -/
theorem c9_witness :
    cmpsu_hwmon_is_visible HwmonType.hwmon_in 0 ≠ 0 ∧
    cmpsu_hwmon_read cmpsu_initData HwmonType.hwmon_in 0 ≠
      .error (-EOPNOTSUPP) ∧
    cmpsu_hwmon_read_string HwmonType.hwmon_in .label 0 = .ok "V_AC" := by
  have h := c9_amended HwmonType.hwmon_in 0 cmpsu_initData
  refine ⟨h.1.mpr (by decide), (h.2.1 (by decide)).2, ?_⟩
  have h3 := h.2.2.1 (by decide)
  simpa using h3

/-- Claim C10: in every state reachable from a fresh session, each slot is
either the -1 sentinel or non-negative (every stored value is a 32-bit
unsigned quantity cast to long), so a set slot can never be mistaken for
unset, and read never hands a negative value to the consumer. -/
theorem c10_values_nonneg (msgs : List (List Nat)) (t : HwmonType) (ch : Nat) :
    (getSlot (runMsgs msgs) t ch = -1 ∨ 0 ≤ getSlot (runMsgs msgs) t ch) ∧
    (∀ v, cmpsu_hwmon_read (runMsgs msgs) t ch = .ok v → 0 ≤ v) := by
  have hslot : getSlot (runMsgs msgs) t ch = (lastWrite t ch msgs).getD (-1) := by
    rw [runMsgs, foldl_getSlot msgs cmpsu_initData t ch, getSlot_init]
  have hdisj : getSlot (runMsgs msgs) t ch = -1 ∨
      0 ≤ getSlot (runMsgs msgs) t ch := by
    rw [hslot]
    cases hl : lastWrite t ch msgs with
    | none => left; rfl
    | some v => right; simpa using lastWrite_nonneg hl
  refine ⟨hdisj, ?_⟩
  intro v hv
  obtain ⟨hs, hne⟩ := cmpsu_hwmon_read_ok hv
  rcases hdisj with h | h
  · rw [hs] at h
    exact absurd h hne
  · rw [hs] at h
    exact h

/-- Claim C10 witness: after one [V1012.5] event the voltage slot reads
back 12500, a non-negative value. -/
theorem c10_witness : (0 : Int) ≤ 12500 :=
  (c10_values_nonneg [[91, 86, 49, 48, 49, 50, 46, 53, 93, 0, 0, 0, 0, 0, 0, 0]]
    HwmonType.hwmon_in 0).2 12500 rfl
